import Mathlib

/-!
Verification development for the streaming LLM chat client (`llm-chat.py`).

The Python source is shallowly embedded: byte streams become `List Char`
(the source decodes each line as UTF-8; the streams handled by the claims
are ASCII, so one byte is one character), JSON values become the inductive
type `Json` below, `json.loads` becomes the executable fueled parser
`jsonLoads`, exceptions become `Option`/flags, and the two generator
methods `user_query_streamed` become pure functions from the list of read
chunks to the list of yielded fragments together with a success flag
(`false` when the generator would raise before the source is exhausted).
File-system access, the clipboard programs and timestamps are external to
the program and are passed in as explicit parameters.
-/

namespace LlmChat

/-- JSON values as produced by `json.loads`: objects are association lists
(in file order, keys unique for the payloads at hand), numbers are modelled
as integers, which covers every payload the claims touch. -/
inductive Json where
  | null : Json
  | bool : Bool → Json
  | num : Int → Json
  | str : String → Json
  | arr : List Json → Json
  | obj : List (String × Json) → Json

/-- Python `dict[key]` / `dict.get(key)` on a decoded object: first binding
of the key in the association list. -/
def jlookup : List (String × Json) → String → Option Json
  | [], _ => none
  | (k, v) :: fields, key => if k = key then some v else jlookup fields key

/-- Python truthiness of a decoded JSON value (`if text:` in the source):
`None`, `False`, `0`, `""`, `[]` and the empty dict are falsy. -/
def pyTruthy : Json → Bool
  | Json.null => false
  | Json.bool b => b
  | Json.num n => decide (n ≠ 0)
  | Json.str s => decide (s ≠ "")
  | Json.arr xs => !xs.isEmpty
  | Json.obj fields => !fields.isEmpty

def lbrace : Char := Char.ofNat 123
def rbrace : Char := Char.ofNat 125

def isWsChar (c : Char) : Bool := c = ' ' ∨ c = '\n' ∨ c = '\t' ∨ c = '\r'

def skipWs : List Char → List Char
  | [] => []
  | c :: cs => if isWsChar c then skipWs cs else c :: cs

/-- Body of a JSON string after the opening quote, up to the closing quote.
The payloads handled by the claims contain no escape sequences, so no
escape handling is modelled. -/
def parseStrBody : List Char → Option (String × List Char)
  | [] => none
  | c :: cs =>
    if c = '"' then some ("", cs)
    else (parseStrBody cs).map (fun p => (Char.toString c ++ p.1, p.2))

def takeDigits : List Char → List Char × List Char
  | [] => ([], [])
  | c :: cs =>
    if c.isDigit then
      let p := takeDigits cs
      (c :: p.1, p.2)
    else ([], c :: cs)

def digitsToNat (ds : List Char) : Nat :=
  ds.foldl (fun a c => a * 10 + (c.toNat - 48)) 0

/-- Comma-separated JSON values after the first element position of a
non-empty array, consuming the closing bracket; the element grammar is
passed in so that the whole parser is structurally recursive on fuel. -/
def parseElems (pv : List Char → Option (Json × List Char)) :
    Nat → List Char → Option (List Json × List Char)
  | 0, _ => none
  | f + 1, s =>
    match pv s with
    | none => none
    | some (v, r) =>
      match skipWs r with
      | ',' :: r2 => (parseElems pv f r2).map (fun p => (v :: p.1, p.2))
      | ']' :: r2 => some ([v], r2)
      | _ => none

/-- Fields of a non-empty JSON object, consuming the closing brace. -/
def parseFields (pv : List Char → Option (Json × List Char)) :
    Nat → List Char → Option (List (String × Json) × List Char)
  | 0, _ => none
  | f + 1, s =>
    match skipWs s with
    | '"' :: r =>
      match parseStrBody r with
      | none => none
      | some (k, r2) =>
        match skipWs r2 with
        | ':' :: r3 =>
          match pv r3 with
          | none => none
          | some (v, r4) =>
            match skipWs r4 with
            | ',' :: r5 => (parseFields pv f r5).map (fun p => ((k, v) :: p.1, p.2))
            | c5 :: r5 => if c5 = rbrace then some ([(k, v)], r5) else none
            | [] => none
        | _ => none
    | _ => none

/-- One JSON value, returning the unconsumed remainder.  Fueled so that the
definition is structurally recursive and kernel-evaluable. -/
def parseJsonVal : Nat → List Char → Option (Json × List Char)
  | 0, _ => none
  | f + 1, input =>
    match skipWs input with
    | [] => none
    | c :: r =>
      if c = '"' then
        (parseStrBody r).map (fun p => (Json.str p.1, p.2))
      else if c = '[' then
        match skipWs r with
        | ']' :: r2 => some (Json.arr [], r2)
        | _ => (parseElems (parseJsonVal f) (f + 1) r).map (fun p => (Json.arr p.1, p.2))
      else if c = lbrace then
        match skipWs r with
        | [] => none
        | c2 :: r2 =>
          if c2 = rbrace then some (Json.obj [], r2)
          else (parseFields (parseJsonVal f) (f + 1) (c2 :: r2)).map
            (fun p => (Json.obj p.1, p.2))
      else if c = 'n' then
        match r with
        | 'u' :: 'l' :: 'l' :: r2 => some (Json.null, r2)
        | _ => none
      else if c = 't' then
        match r with
        | 'r' :: 'u' :: 'e' :: r2 => some (Json.bool true, r2)
        | _ => none
      else if c = 'f' then
        match r with
        | 'a' :: 'l' :: 's' :: 'e' :: r2 => some (Json.bool false, r2)
        | _ => none
      else if c = '-' then
        match takeDigits r with
        | ([], _) => none
        | (ds, r2) => some (Json.num (-(digitsToNat ds : Int)), r2)
      else if c.isDigit then
        match takeDigits (c :: r) with
        | ([], _) => none
        | (ds, r2) => some (Json.num (digitsToNat ds : Int), r2)
      else none

/-- Model of `json.loads`: parse a full value, reject trailing garbage.
`none` stands for a raised `json.JSONDecodeError`. -/
def jsonLoads (s : List Char) : Option Json :=
  match parseJsonVal (s.length + 1) s with
  | some (j, r) => if skipWs r = [] then some j else none
  | none => none

/-!
Stream Decoder (`OpenaiAPI.user_query_streamed`, lines 100-123, and
`AnthropicAPI.user_query_streamed`, lines 52-72).  Both methods share the
same skeleton: an accumulating buffer, `fh.read(100)` per outer iteration,
and an inner `for _ in range(100)` loop that extracts at most 100
newline-terminated lines per read.  A line starting with `"data: "` has its
payload handled per provider.  The per-payload handler returns
`some fragments` (zero or one fragment) or `none` for a raised exception,
which aborts the generator.
-/

/-- Handler for one `"data: "` payload of the OpenAI-style stream (lines
113-121): the literal sentinel `"[DONE]"` is skipped without decoding;
otherwise the payload is decoded, `content["choices"]` is read, and for a
non-empty choices array `choices[0]["delta"].get("content")` is yielded
when it is not `None` (JSON `null` decodes to Python `None`).  A payload
whose shape makes any of those dictionary/list accesses raise is `none`;
a non-string delta value (which the source would pass on only to fault at
the terminal write) is likewise modelled as a failure. -/
def openaiHandle (data : List Char) : Option (List String) :=
  if data = "[DONE]".toList then some []
  else
    match jsonLoads data with
    | none => none
    | some content =>
      match content with
      | Json.obj fields =>
        match jlookup fields "choices" with
        | some (Json.arr choices) =>
          match choices with
          | [] => some []
          | c :: _ =>
            match c with
            | Json.obj cf =>
              match jlookup cf "delta" with
              | some (Json.obj df) =>
                match jlookup df "content" with
                | none => some []
                | some Json.null => some []
                | some (Json.str s) => some [s]
                | some _ => none
              | _ => none
            | _ => none
        | _ => none
      | _ => none

/-- Handler for one `"data: "` payload of the Anthropic-style stream (lines
66-70): decode, take `content.get("delta", \x7b\x7d)` then
`delta.get("text", "")`, and yield the text only when it is truthy.  A
falsy non-string (`null`, `0`, `false`, ...) yields nothing, exactly like
the empty string; a truthy non-string is modelled as a failure (the source
would pass it on only to fault at the terminal write). -/
def anthropicHandle (data : List Char) : Option (List String) :=
  match jsonLoads data with
  | none => none
  | some (Json.obj fields) =>
    match jlookup fields "delta" with
    | none => some []
    | some (Json.obj df) =>
      match jlookup df "text" with
      | none => some []
      | some v =>
        if pyTruthy v then
          match v with
          | Json.str s => some [s]
          | _ => none
        else some []
    | some _ => none
  | some _ => none

/-- One extracted line (lines 112-121 / 63-70): the `"data: "` check and
payload dispatch; lines without the marker are dropped. -/
def lineEmit (handle : List Char → Option (List String)) (line : List Char) :
    Option (List String) :=
  if "data: ".toList.isPrefixOf line then handle (line.drop 6) else some []

/-- `buffer.find(b"\n")` followed by the split into the first line and the
rest of the buffer: `none` when the buffer holds no newline. -/
def splitAtNewline : List Char → Option (List Char × List Char)
  | [] => none
  | c :: cs =>
    if c = '\n' then some ([], cs)
    else (splitAtNewline cs).map (fun p => (c :: p.1, p.2))

/-- The inner `for _ in range(100)` loop (lines 107-123): extract up to
`fuel` newline-terminated lines from the buffer, emitting each line's
fragments in order.  Returns the fragments, the remaining buffer and
`false` when a handler raised (which aborts the scan). -/
def scanLines (handle : List Char → Option (List String)) :
    Nat → List Char → List String × List Char × Bool
  | 0, buf => ([], buf, true)
  | fuel + 1, buf =>
    match splitAtNewline buf with
    | none => ([], buf, true)
    | some (line, rest) =>
      match lineEmit handle line with
      | none => ([], rest, false)
      | some fs =>
        let p := scanLines handle fuel rest
        (fs ++ p.1, p.2.1, p.2.2)

/-- The outer `while response_body := fh.read(100)` loop (lines 103-123):
each chunk is one read's worth of bytes (`fh.read(100)` returns between 1
and 100 bytes until the source is exhausted; an empty read ends the loop,
discarding any residual partial line).  Returns the fragments yielded by
the generator and `false` when it raised. -/
def decodeChunks (handle : List Char → Option (List String)) :
    List (List Char) → List Char → List String × Bool
  | [], _ => ([], true)
  | c :: cs, buf =>
    if c = [] then ([], true)
    else
      let p := scanLines handle 100 (buf ++ c)
      if p.2.2 then
        let q := decodeChunks handle cs p.2.1
        (p.1 ++ q.1, q.2)
      else (p.1, false)

/-- A provider's `user_query_streamed` generator, as a function from the
sequence of network reads to the yielded fragments plus a success flag. -/
def decodeStream (handle : List Char → Option (List String))
    (chunks : List (List Char)) : List String × Bool :=
  decodeChunks handle chunks []

/-- `OpenaiAPI.user_query_streamed`, decoding part (lines 100-123). -/
def openai_user_query_streamed (chunks : List (List Char)) : List String × Bool :=
  decodeStream openaiHandle chunks

/-- `AnthropicAPI.user_query_streamed`, decoding part (lines 52-72). -/
def anthropic_user_query_streamed (chunks : List (List Char)) : List String × Bool :=
  decodeStream anthropicHandle chunks

/-!
Chunking-independent normal form of the decoder: split the whole byte
stream into newline-terminated lines (discarding the trailing partial
line) and run the per-line handler over them.  The bridge lemmas below
prove the chunked decoder equal to this normal form.
-/

/-- Complete newline-terminated lines of a byte stream, together with the
trailing partial line (the part after the last newline). -/
def splitLines : List Char → List (List Char) × List Char
  | [] => ([], [])
  | c :: cs =>
    let p := splitLines cs
    if c = '\n' then ([] :: p.1, p.2)
    else
      match p.1 with
      | l :: ls => ((c :: l) :: ls, p.2)
      | [] => ([], c :: p.2)

/-- Run the per-line handler over a list of already-extracted lines,
stopping at the first raised exception. -/
def runLines (handle : List Char → Option (List String)) :
    List (List Char) → List String × Bool
  | [] => ([], true)
  | l :: ls =>
    match lineEmit handle l with
    | none => ([], false)
    | some fs =>
      let p := runLines handle ls
      (fs ++ p.1, p.2)

/-!
Conversation context (`ChatContext`, lines 126-191) and the command
processor (`process_prompt`, lines 216-328).  The file system is passed as
`fs : String → Option String` (name to content, `none` for
`FileNotFoundError`) and the clipboard programs as `clip : String → Bool`
(content to success).  Mutation becomes returning the updated context, and
the payloads handed to `set_clipboard` are recorded in the result so that
the effect is observable.
-/

structure Turn where
  role : String
  content : String
  item_id : String
deriving DecidableEq, Repr

structure RefFile where
  filename : String
  content : String
deriving DecidableEq, Repr

structure ChatContext where
  history : List Turn
  files : List RefFile
deriving DecidableEq, Repr

def ROLE_USER : String := "user"
def ROLE_ASSISTANT : String := "assistant"
def ROLE_SYSTEM : String := "system"

/-- `ChatContext.add_history` (lines 139-147); the source defaults
`item_id` to `"unset"`, callers that rely on the default pass it here
explicitly. -/
def add_history (ctx : ChatContext) (role content item_id : String) : ChatContext :=
  ⟨ctx.history ++ [⟨role, content, item_id⟩], ctx.files⟩

/-- `ChatContext.add_file` (lines 149-162). -/
def add_file (fs : String → Option String) (ctx : ChatContext) (filename : String) :
    ChatContext × Bool :=
  match fs filename with
  | some content => (⟨ctx.history, ctx.files ++ [⟨filename, content⟩]⟩, true)
  | none => (ctx, false)

structure Msg where
  role : String
  content : String
deriving DecidableEq, Repr

/-- Rendering of one attached file inside the outbound message
(line 173). -/
def renderRefFile (file : RefFile) : String :=
  "<FILENAME>" ++ file.filename ++ "</FILENAME><FILECONTENT>" ++ file.content ++ "</FILECONTENT>"

/-- `ChatContext.build_messages` (lines 164-191): wrap the newest user
message in the file template when files are attached, and append it to the
history rendered as role/content pairs. -/
def build_messages (ctx : ChatContext) (user_message : String) : List Msg :=
  let message :=
    if ctx.files.length > 0 then
      let files_part := String.intercalate "\n" (ctx.files.map renderRefFile)
      "Consider the following files:\n\n" ++ files_part ++
        "\n\nMy question is this: " ++ user_message
    else user_message
  ctx.history.map (fun item => ⟨item.role, item.content⟩) ++ [⟨ROLE_USER, message⟩]

/-- Result of one `process_prompt` call: the updated context, the
`(forwardText, infoMessage)` pair, and the contents handed to
`set_clipboard`, in call order. -/
structure PromptResult where
  ctx : ChatContext
  forward : String
  info : String
  clipboard : List String
deriving DecidableEq, Repr

/-- Python `prompt.split(" ", maxsplit=1)`: the part before the first
space, and (when a space exists) everything after it. -/
def split1 : List Char → List Char × Option (List Char)
  | [] => ([], none)
  | c :: cs =>
    if c = ' ' then ([], some cs)
    else
      let p := split1 cs
      (c :: p.1, p.2)

/-- The `/remove` loop (lines 231-239): keep every file whose position and
filename both differ from the selector, and record whether any file
matched. -/
def removeFiles (sel : String) : Nat → List RefFile → List RefFile × Bool
  | _, [] => ([], false)
  | idx, f :: rest =>
    let p := removeFiles sel (idx + 1) rest
    if toString idx ≠ sel ∧ f.filename ≠ sel then (f :: p.1, p.2) else (p.1, true)

/-- The `_find` closure of the `/copy` branch (lines 248-254): reverse
search of the history for an assistant turn whose `item_id` satisfies the
matcher; returns its content and `item_id`. -/
def find_assistant (history : List Turn) (matcher : String → Bool) :
    Option (String × String) :=
  match history with
  | [] => none
  | t :: ts =>
    match find_assistant ts matcher with
    | some r => some r
    | none =>
      if t.role = ROLE_ASSISTANT ∧ matcher t.item_id then some (t.content, t.item_id)
      else none

/-- Python `str.startswith` (kernel-evaluable form). -/
def pyStartswith (s pre : String) : Bool :=
  pre.toList.isPrefixOf s.toList

/-- Python `s[n:]` (kernel-evaluable form of `String.drop`). -/
def pyDrop (s : String) (n : Nat) : String :=
  ⟨s.toList.drop n⟩

/-- Python `str.splitlines` for the newline-separated strings at hand:
every newline-terminated line, then the trailing part if non-empty (so no
trailing empty line). -/
def pySplitlines (s : String) : List String :=
  let p := splitLines s.toList
  p.1.map String.mk ++ (if p.2 = [] then [] else [String.mk p.2])

/-- The fenced-code-block scanner of the `/copy c...` branch
(lines 268-279): alternate between outside-code and inside-code on lines
starting with three backticks, keeping the inside lines. -/
def extract_code : Bool → List String → List String
  | _, [] => []
  | false, l :: ls =>
    if pyStartswith l "```" then extract_code true ls else extract_code false ls
  | true, l :: ls =>
    if pyStartswith l "```" then extract_code false ls else l :: extract_code true ls

/-- State of the `/copy` branch's `item_id`/`content` locals; `_find`
overwrites them only on a match. -/
def applyFind (st : Option String × String) (r : Option (String × String)) :
    Option String × String :=
  match r with
  | some (c, i) => (some i, c)
  | none => st

/-- `process_prompt` (lines 216-328). -/
def process_prompt (fs : String → Option String) (clip : String → Bool)
    (context : ChatContext) (prompt : String) : PromptResult :=
  let bits := split1 prompt.toList
  let isCmd := bits.1.head? = some '/'
  let command : String := if isCmd then ⟨bits.1⟩ else ""
  let rest : String := if isCmd then (match bits.2 with | some r => ⟨r⟩ | none => "") else prompt
  if command = "/add" ∨ command = "/a" then
    let p := add_file fs context rest
    if p.2 then ⟨p.1, "", "Added file " ++ rest, []⟩
    else ⟨p.1, "", "Failed to add file " ++ rest, []⟩
  else if command = "/remove" ∨ command = "/r" then
    let p := removeFiles rest 0 context.files
    ⟨⟨context.history, p.1⟩, "", if p.2 then "Removed file" else "Didn't find file", []⟩
  else if command = "/remove-all" ∨ command = "/ra" then
    ⟨⟨context.history, []⟩, "", "Removed all files", []⟩
  else if command = "/copy" ∨ command = "/c" then
    let st0 : Option String × String := (none, "")
    let st1 :=
      if rest = "" then applyFind st0 (find_assistant context.history (fun _ => true))
      else if pyStartswith rest "r" then
        applyFind st0 (find_assistant context.history (fun item => item = rest))
      else st0
    let st2 :=
      if pyStartswith rest "c" then
        if rest.length > 1 then
          let target := "r" ++ pyDrop rest 1
          applyFind (some target, st1.2)
            (find_assistant context.history (fun item => item = target))
        else applyFind st1 (find_assistant context.history (fun _ => true))
      else st1
    let content :=
      if pyStartswith rest "c" then
        String.intercalate "\n" (extract_code false (pySplitlines st2.2))
      else st2.2
    let extra := if pyStartswith rest "c" then " code" else ""
    match st2.1 with
    | some iid =>
      if iid = "" then ⟨context, "", "Could not find item to copy", []⟩
      else
        let copied := clip content
        ⟨context, "",
          (if copied then "Copied " ++ iid ++ extra ++ " to clipboard"
           else "Failed to copy " ++ iid ++ extra ++ " to clipboard"),
          [content]⟩
    | none => ⟨context, "", "Could not find item to copy", []⟩
  else if command = "/pop-history" ∨ command = "/ph" then
    ⟨⟨context.history.take (context.history.length - 2), context.files⟩, "",
      "Dropped last request/response from history", []⟩
  else if command = "/print-history" ∨ command = "/prh" then
    if context.history = [] then ⟨context, "", "No chat history to display", []⟩
    else ⟨context, "", "Chat history printed above", []⟩
  else if command = "/help" ∨ command = "/h" then
    ⟨context, "",
      "Available commands:\n/add <file>, /a <file>        - Add file to chat context\n/remove <file>, /r <file>     - Remove file by name or index\n/remove-all, /ra              - Remove all files from context\n/copy [item], /c [item]       - Copy response to clipboard (latest if no item)\n/copy c[num], /c c[num]       - Copy code blocks from response\n/pop-history, /ph             - Remove last request/response from history\n/print-history, /prh          - Print all chat history to terminal\n/help, /h                     - Show this help message", []⟩
  else if command = "" then
    ⟨context, prompt, "", []⟩
  else
    ⟨context, "", "Unknown command: " ++ command ++ " . Try /help.", []⟩

/-!
Session Log (`log_message`, lines 331-346, and `restore_chat_history`,
lines 349-373).  Each log line is `json.dumps` of one entry dict and the
restore side begins with `json.loads` of each line; since
`json.loads (json.dumps e) = e` is the library's contract, the log file is
modelled as the list of decoded entries, one per non-blank well-formed
line (blank and malformed lines are skipped by the source before the code
modelled here runs).  The wall-clock timestamp is passed in.
-/

/-- The entry dict built by `log_message` (lines 334-344): `timestamp`,
`role` and `message` always, then `model`, `response_time` and `item_id`
only when given. -/
def log_entry (timestamp actor message : String) (model : Option String)
    (response_time : Option Int) (item_id : Option String) : Json :=
  Json.obj
    ([("timestamp", Json.str timestamp), ("role", Json.str actor),
      ("message", Json.str message)] ++
     (match model with | some m => [("model", Json.str m)] | none => []) ++
     (match response_time with | some t => [("response_time", Json.num t)] | none => []) ++
     (match item_id with | some i => [("item_id", Json.str i)] | none => []))

/-- The body of `restore_chat_history`'s loop for one decoded entry
(lines 358-366): read `role`, `message` and `item_id` (default `"unset"`),
and append a turn only for role `user`/`assistant` with a truthy message.
Entries written by `log_message` carry strings in these fields; a
non-string `role` never equals the role constants and a missing or falsy
`message` is skipped, which the string matches below reproduce for every
entry the log writer can produce. -/
def restore_entry (ctx : ChatContext) (entry : Json) : ChatContext :=
  match entry with
  | Json.obj fields =>
    let item_id :=
      match jlookup fields "item_id" with
      | some (Json.str s) => s
      | _ => "unset"
    match jlookup fields "role", jlookup fields "message" with
    | some (Json.str role), some (Json.str message) =>
      if (role = ROLE_USER ∨ role = ROLE_ASSISTANT) ∧ message ≠ "" then
        add_history ctx role message item_id
      else ctx
    | _, _ => ctx
  | _ => ctx

/-- `restore_chat_history` (lines 349-373) over the decoded log entries.
An entry that is not an object makes `entry.get` raise; the surrounding
handler prints a warning and abandons the rest of the file, keeping the
turns restored so far. -/
def restore_chat_history (ctx : ChatContext) : List Json → ChatContext
  | [] => ctx
  | e :: es =>
    match e with
    | Json.obj _ => restore_chat_history (restore_entry ctx e) es
    | _ => ctx

/-- The log entry that `main` writes for one turn: `log_message(log_file,
role, content)` for user turns (no `item_id`) and `log_message(...,
item_id=...)` for assistant turns.  A turn whose `item_id` is the `"unset"`
placeholder is exactly one persisted without an `item_id` field. -/
def write_turn (timestamp : String) (t : Turn) : Json :=
  log_entry timestamp t.role t.content none none
    (if t.item_id = "unset" then none else some t.item_id)

/-!
One iteration of `main`'s read loop past the empty-prompt check
(lines 475-496): dispatch through `process_prompt`; an info message stops
the turn; otherwise the original prompt is logged and appended to history
while `build_messages` of the (possibly rewritten) forward text is what is
sent to the provider.  The streamed reply is passed in as `reply`, and the
model name, response time and the two wall-clock timestamps are
parameters.
-/

structure StepResult where
  ctx : ChatContext
  logEntries : List Json
  sent : Option (List Msg)
  counter : Nat

def main_step (fs : String → Option String) (clip : String → Bool)
    (modelName ts1 ts2 : String) (response_time : Int) (reply : String)
    (counter : Nat) (ctx : ChatContext) (prompt : String) : StepResult :=
  let r := process_prompt fs clip ctx prompt
  if r.info ≠ "" then ⟨r.ctx, [], none, counter⟩
  else if r.forward ≠ "" then
    let sentMsgs := build_messages r.ctx r.forward
    let result := reply
    let ctx2 := add_history r.ctx ROLE_USER prompt "unset"
    let ctx3 := add_history ctx2 ROLE_ASSISTANT result ("r" ++ toString counter)
    ⟨ctx3,
      [log_entry ts1 ROLE_USER prompt none none none,
       log_entry ts2 ROLE_ASSISTANT result (some modelName) (some response_time)
         (some ("r" ++ toString counter))],
      some sentMsgs, counter + 1⟩
  else ⟨r.ctx, [], none, counter⟩

/-- Empty file system: every `open` raises `FileNotFoundError`. -/
def fsNone : String → Option String := fun _ => none

/-- Clipboard oracle on which every clipboard program is absent. -/
def clipNone : String → Bool := fun _ => false

/-- A positioned reference file matches a `/remove` selector when the
selector equals its zero-based index rendered as a string, or its
filename. -/
def matchesSelector (sel : String) (p : Nat × RefFile) : Bool :=
  toString p.1 = sel ∨ p.2.filename = sel

/-- A history turn rendered for the provider API: role and content only. -/
def turnMsg (t : Turn) : Msg := ⟨t.role, t.content⟩

end LlmChat

namespace LlmChat

theorem str_append_ne_empty (s t : String) (h : s ≠ "") : s ++ t ≠ "" := by
  intro he
  apply h
  have hl := congrArg String.length he
  rw [String.length_append] at hl
  have h0 : ("" : String).length = 0 := rfl
  rw [h0] at hl
  have : s.length = 0 := by omega
  cases s with
  | mk data =>
    cases data with
    | nil => rfl
    | cons c cs => simp [String.length, List.length] at this

/-- Rewriting `process_prompt` on a non-command prompt: the raw prompt is
forwarded, nothing else happens. -/
theorem process_prompt_noncommand (fs : String → Option String) (clip : String → Bool)
    (ctx : ChatContext) (prompt : String)
    (h : ¬ (split1 prompt.toList).1.head? = some '/') :
    process_prompt fs clip ctx prompt = ⟨ctx, prompt, "", []⟩ := by
  unfold process_prompt
  simp only [h, if_false, ite_false]
  rfl

/-- Claim C10: with fewer than two turns in the history, `/pop-history`
(and `/ph`) deletes them all; in particular a lone system turn is removed,
leaving an empty history. -/
theorem pop_history_clears_short_history (fs : String → Option String)
    (clip : String → Bool) (ctx : ChatContext) (h : ctx.history.length < 2) :
    (process_prompt fs clip ctx "/pop-history").ctx.history = [] ∧
    (process_prompt fs clip ctx "/ph").ctx.history = [] := by
  have h2 : ctx.history.length - 2 = 0 := by omega
  constructor <;>
    · show ctx.history.take (ctx.history.length - 2) = []
      rw [h2]
      exact List.take_zero _

/-- Witness for C10: a context holding only the system turn ends with an
empty history. -/
theorem pop_history_clears_short_history_witness :
    (process_prompt fsNone clipNone ⟨[⟨ROLE_SYSTEM, "be brief", "unset"⟩], []⟩
      "/pop-history").ctx.history = [] :=
  (pop_history_clears_short_history fsNone clipNone
    ⟨[⟨ROLE_SYSTEM, "be brief", "unset"⟩], []⟩ (by decide)).1

/-- Claim C8: with assistant turns `r0` then `r1` in the history,
`/copy r0` hands the clipboard sink the content of the turn whose
`item_id` is literally `"r0"` — the earlier one — whatever the clipboard
programs then report. -/
theorem copy_selects_item_id_verbatim (fs : String → Option String)
    (clip : String → Bool) (u1 a u2 b : String) (files : List RefFile) :
    (process_prompt fs clip
      ⟨[⟨ROLE_USER, u1, "unset"⟩, ⟨ROLE_ASSISTANT, a, "r0"⟩,
        ⟨ROLE_USER, u2, "unset"⟩, ⟨ROLE_ASSISTANT, b, "r1"⟩], files⟩
      "/copy r0").clipboard = [a] := rfl

/-- Claim C7: `build_messages` appends the newest user turn to the
rendered history; with no attached files its content is the input text
unchanged, and with files attached it is the fixed template embedding each
attached file's rendering once, in attachment order, followed by the
original text. -/
theorem build_messages_template (ctx : ChatContext) (u : String) :
    (ctx.files = [] →
      build_messages ctx u = ctx.history.map turnMsg ++ [⟨ROLE_USER, u⟩]) ∧
    (ctx.files ≠ [] →
      build_messages ctx u = ctx.history.map turnMsg ++
        [⟨ROLE_USER,
          "Consider the following files:\n\n" ++
            String.intercalate "\n" (ctx.files.map renderRefFile) ++
            "\n\nMy question is this: " ++ u⟩]) := by
  constructor <;> intro h
  · simp [build_messages, turnMsg, h]
  · have hp : 0 < ctx.files.length := List.length_pos.mpr h
    simp [build_messages, turnMsg, hp]

/-- Witness for C7 at concrete inputs: identity with no files, the full
template with one file. -/
theorem build_messages_template_witness :
    build_messages ⟨[], []⟩ "hi" = [⟨ROLE_USER, "hi"⟩] ∧
    build_messages ⟨[], [⟨"notes.txt", "hello"⟩]⟩ "hi" =
      [⟨ROLE_USER,
        "Consider the following files:\n\n" ++
          String.intercalate "\n" ([⟨"notes.txt", "hello"⟩].map renderRefFile) ++
          "\n\nMy question is this: " ++ "hi"⟩] :=
  ⟨(build_messages_template ⟨[], []⟩ "hi").1 rfl,
   (build_messages_template ⟨[], [⟨"notes.txt", "hello"⟩]⟩ "hi").2 (by decide)⟩

/-- Counterexample to claim C2: with two files both named `"a"`, the
source's `/remove a` loop removes *both*, not just the first structural
match — removing only the first would leave the second file in place. -/
theorem remove_first_match_counterexample :
    (process_prompt fsNone clipNone ⟨[], [⟨"a", "x"⟩, ⟨"a", "y"⟩]⟩ "/remove a").ctx.files
        = [] ∧
    (process_prompt fsNone clipNone ⟨[], [⟨"a", "x"⟩, ⟨"a", "y"⟩]⟩ "/remove a").info
        = "Removed file" ∧
    ([] : List RefFile) ≠ [⟨"a", "y"⟩] := by
  refine ⟨rfl, rfl, ?_⟩
  decide

/-- The `/remove` loop keeps exactly the positioned files that do not
match the selector, and records whether any file matched. -/
theorem removeFiles_eq_filter (sel : String) (files : List RefFile) (n : Nat) :
    removeFiles sel n files =
      (((List.enumFrom n files).filter (fun p => !matchesSelector sel p)).map Prod.snd,
        (List.enumFrom n files).any (matchesSelector sel)) := by
  induction files generalizing n with
  | nil => rfl
  | cons f rest ih =>
    simp only [removeFiles, List.enumFrom, List.filter, List.any, ih (n + 1),
      matchesSelector]
    by_cases h1 : toString n = sel
    · simp [h1]
    · by_cases h2 : f.filename = sel <;> simp [h1, h2]

/-- Claim C2 (amended): `/remove` with a selector removes *every* file
whose zero-based position (rendered as a string) or filename equals the
selector — not only the first match — leaves the rest in order, and
reports `"Removed file"` exactly when at least one file matched, else
`"Didn't find file"`. -/
theorem remove_removes_all_matches (fs : String → Option String)
    (clip : String → Bool) (ctx : ChatContext) (sel : String) :
    (process_prompt fs clip ctx ("/remove " ++ sel)).ctx.files =
        ((ctx.files.enum.filter (fun p => !matchesSelector sel p)).map Prod.snd) ∧
    (process_prompt fs clip ctx ("/remove " ++ sel)).ctx.history = ctx.history ∧
    (process_prompt fs clip ctx ("/remove " ++ sel)).forward = "" ∧
    (process_prompt fs clip ctx ("/remove " ++ sel)).info =
        (if ctx.files.enum.any (matchesSelector sel) then "Removed file"
         else "Didn't find file") := by
  have hremove : process_prompt fs clip ctx ("/remove " ++ sel) =
      ⟨⟨ctx.history, (removeFiles sel 0 ctx.files).1⟩, "",
        (if (removeFiles sel 0 ctx.files).2 then "Removed file" else "Didn't find file"),
        []⟩ := rfl
  rw [hremove, removeFiles_eq_filter]
  exact ⟨rfl, rfl, rfl, rfl⟩

/-- Every slash-command input (first space-separated token starting with
`'/'`) produces an empty forward text and a non-empty info message,
whatever the command, argument, context and environment. -/
theorem ite_ne_empty (c : Prop) [Decidable c] (i e : String) (hi : i ≠ "")
    (he : e ≠ "") : (if c then i else e) ≠ "" := by
  by_cases hc : c
  · rwa [if_pos hc]
  · rwa [if_neg hc]

theorem process_prompt_command_info (fs : String → Option String)
    (clip : String → Bool) (ctx : ChatContext) (prompt : String)
    (h : (split1 prompt.toList).1.head? = some '/') :
    (process_prompt fs clip ctx prompt).forward = "" ∧
    (process_prompt fs clip ctx prompt).info ≠ "" := by
  have hne : (⟨(split1 prompt.toList).1⟩ : String) ≠ "" := by
    intro hx
    have hnil : (split1 prompt.toList).1 = [] := congrArg String.data hx
    rw [hnil] at h
    simp at h
  unfold process_prompt
  simp only [h, eq_self_iff_true, if_true]
  generalize (match (split1 prompt.toList).2 with
    | some r => (⟨r⟩ : String)
    | none => "") = rst
  generalize hcd : (⟨(split1 prompt.toList).1⟩ : String) = cmd
  have hcne : cmd ≠ "" := hcd ▸ hne
  by_cases h1 : cmd = "/add" ∨ cmd = "/a"
  · rw [if_pos h1]
    refine ⟨?_, ?_⟩ <;> split <;>
      first
        | rfl
        | exact str_append_ne_empty "Added file " _ (by decide)
        | exact str_append_ne_empty "Failed to add file " _ (by decide)
  rw [if_neg h1]
  by_cases h2 : cmd = "/remove" ∨ cmd = "/r"
  · rw [if_pos h2]
    refine ⟨rfl, ?_⟩
    split <;> simp
  rw [if_neg h2]
  by_cases h3 : cmd = "/remove-all" ∨ cmd = "/ra"
  · rw [if_pos h3]
    exact ⟨rfl, by simp⟩
  rw [if_neg h3]
  by_cases h4 : cmd = "/copy" ∨ cmd = "/c"
  · rw [if_pos h4]
    constructor
    · split
      · split <;> rfl
      · rfl
    · split
      · split
        · simp
        · dsimp only
          exact ite_ne_empty _ _ _
            (str_append_ne_empty _ _
              (str_append_ne_empty _ _ (str_append_ne_empty "Copied " _ (by decide))))
            (str_append_ne_empty _ _
              (str_append_ne_empty _ _ (str_append_ne_empty "Failed to copy " _ (by decide))))
      · simp
  rw [if_neg h4]
  by_cases h5 : cmd = "/pop-history" ∨ cmd = "/ph"
  · rw [if_pos h5]
    exact ⟨rfl, by simp⟩
  rw [if_neg h5]
  by_cases h6 : cmd = "/print-history" ∨ cmd = "/prh"
  · rw [if_pos h6]
    refine ⟨?_, ?_⟩ <;> split <;> first | rfl | simp
  rw [if_neg h6]
  by_cases h7 : cmd = "/help" ∨ cmd = "/h"
  · rw [if_pos h7]
    exact ⟨rfl, by simp⟩
  rw [if_neg h7, if_neg hcne]
  exact ⟨rfl, str_append_ne_empty _ _ (str_append_ne_empty "Unknown command: " _ (by decide))⟩

/-- Counterexample to claim C9: on the exactly-empty input line the
Command Processor returns `("", "")` — both components empty, so it is
false that exactly one of them is non-empty for *every* input line. -/
theorem process_prompt_exactly_one_counterexample :
    (process_prompt fsNone clipNone ⟨[], []⟩ "").forward = "" ∧
    (process_prompt fsNone clipNone ⟨[], []⟩ "").info = "" := ⟨rfl, rfl⟩

/-- Claim C9 (amended): for every *non-empty* input line exactly one of
`(forwardText, infoMessage)` is non-empty: a slash command (recognized or
not) yields an empty forward text and a non-empty info message, and a
non-command input is forwarded unchanged with an empty info message.  (The
exactly-empty input line is routed through as `("", "")`.) -/
theorem process_prompt_exactly_one (fs : String → Option String)
    (clip : String → Bool) (ctx : ChatContext) (prompt : String)
    (h : prompt ≠ "") :
    (((split1 prompt.toList).1.head? = some '/') →
        (process_prompt fs clip ctx prompt).forward = "" ∧
        (process_prompt fs clip ctx prompt).info ≠ "") ∧
    (¬ (split1 prompt.toList).1.head? = some '/' →
        (process_prompt fs clip ctx prompt).forward = prompt ∧
        (process_prompt fs clip ctx prompt).info = "") ∧
    ((process_prompt fs clip ctx prompt).forward = "" ↔
        (process_prompt fs clip ctx prompt).info ≠ "") := by
  refine ⟨fun hc => process_prompt_command_info fs clip ctx prompt hc, ?_, ?_⟩
  · intro hc
    rw [process_prompt_noncommand fs clip ctx prompt hc]
    exact ⟨rfl, rfl⟩
  · by_cases hc : (split1 prompt.toList).1.head? = some '/'
    · have hp := process_prompt_command_info fs clip ctx prompt hc
      rw [hp.1]
      simp [hp.2]
    · rw [process_prompt_noncommand fs clip ctx prompt hc]
      simpa using h

/-- Witness for C9 at concrete inputs: a recognized command, an
unrecognized command, and an ordinary prompt. -/
theorem process_prompt_exactly_one_witness :
    ((process_prompt fsNone clipNone ⟨[], []⟩ "/help").forward = "" ∧
      (process_prompt fsNone clipNone ⟨[], []⟩ "/help").info ≠ "") ∧
    ((process_prompt fsNone clipNone ⟨[], []⟩ "hello").forward = "hello" ∧
      (process_prompt fsNone clipNone ⟨[], []⟩ "hello").info = "") :=
  ⟨(process_prompt_exactly_one fsNone clipNone ⟨[], []⟩ "/help" (by decide)).1 (by decide),
   (process_prompt_exactly_one fsNone clipNone ⟨[], []⟩ "hello" (by decide)).2.1 (by decide)⟩

/-- Restoring the entry written for one turn appends that turn back â
provided its role is `user`/`assistant` and its content is non-empty â
and is a no-op otherwise. -/
theorem restore_entry_write (ctx : ChatContext) (ts : String) (t : Turn) :
    restore_entry ctx (write_turn ts t) =
      (if (t.role = ROLE_USER ∨ t.role = ROLE_ASSISTANT) ∧ t.content ≠ "" then
        add_history ctx t.role t.content t.item_id
       else ctx) := by
  by_cases hid : t.item_id = "unset" <;>
    simp [write_turn, log_entry, restore_entry, jlookup, hid,
      List.cons_append, List.nil_append, List.append_nil]

/-- Restoring the log written for a list of turns appends exactly the
turns with role `user`/`assistant` and non-empty content, in order. -/
theorem restore_write_turns (ts : String) (turns : List Turn) (ctx : ChatContext)
    (h : ∀ t ∈ turns, t.role = ROLE_USER ∨ t.role = ROLE_ASSISTANT ∨ t.role = ROLE_SYSTEM) :
    restore_chat_history ctx (turns.map (write_turn ts)) =
      ⟨ctx.history ++
        turns.filter (fun t => (t.role = ROLE_USER ∨ t.role = ROLE_ASSISTANT) ∧ t.content ≠ ""),
       ctx.files⟩ := by
  induction turns generalizing ctx with
  | nil =>
    simp only [List.map_nil, List.filter_nil, List.append_nil]
    rfl
  | cons t rest ih =>
    rw [List.map_cons]
    have hstep : restore_chat_history ctx (write_turn ts t :: rest.map (write_turn ts)) =
        restore_chat_history (restore_entry ctx (write_turn ts t)) (rest.map (write_turn ts)) := rfl
    rw [hstep, restore_entry_write,
      ih _ (fun x hx => h x (List.mem_cons_of_mem t hx))]
    by_cases hc : (t.role = ROLE_USER ∨ t.role = ROLE_ASSISTANT) ∧ t.content ≠ ""
    · rw [if_pos hc]
      simp [add_history, List.filter_cons, hc]
    · rw [if_neg hc]
      simp [List.filter_cons, hc]

/-- Counterexample to claim C4: a single user turn with empty content is
written to the log but dropped on restore (the reader requires a truthy
`message`), so the restored list is not equivalent to the original. -/
theorem log_roundtrip_counterexample :
    (restore_chat_history ⟨[], []⟩
        ([⟨ROLE_USER, "", "unset"⟩].map (write_turn "2024-01-01T00:00:00"))).history = [] ∧
    ([] : List Turn) ≠ [⟨ROLE_USER, "", "unset"⟩] := by
  refine ⟨rfl, ?_⟩
  decide

/-- Claim C4 (amended): writing a sequence of turns through the Session
Log writer and replaying it into a fresh context reconstructs, in order
and with role, content and `item_id` intact, exactly the turns whose role
is `user`/`assistant` â system turns are excluded â *and whose content is
non-empty* (an empty-content turn is dropped by the restore filter); a
turn persisted without an `item_id` field comes back with the placeholder
`"unset"`. -/
theorem log_roundtrip (ts : String) (turns : List Turn)
    (h : ∀ t ∈ turns, t.role = ROLE_USER ∨ t.role = ROLE_ASSISTANT ∨ t.role = ROLE_SYSTEM) :
    (restore_chat_history ⟨[], []⟩ (turns.map (write_turn ts))).history =
      turns.filter
        (fun t => (t.role = ROLE_USER ∨ t.role = ROLE_ASSISTANT) ∧ t.content ≠ "") := by
  rw [restore_write_turns ts turns ⟨[], []⟩ h]
  simp

/-- Witness for C4 at a concrete conversation: user and assistant turns
round-trip with their ids, the system turn is dropped. -/
theorem log_roundtrip_witness :
    (restore_chat_history ⟨[], []⟩
        ([⟨ROLE_SYSTEM, "be brief", "unset"⟩, ⟨ROLE_USER, "hi", "unset"⟩,
          ⟨ROLE_ASSISTANT, "hello", "r0"⟩].map (write_turn "t0"))).history =
      [⟨ROLE_USER, "hi", "unset"⟩, ⟨ROLE_ASSISTANT, "hello", "r0"⟩] := by
  rw [log_roundtrip "t0" _ (by decide)]
  decide

/-- Claim C6: for a non-command prompt sent while reference files are
attached, the provider receives the file-wrapping template as the newest
user turn, while the history gains and the Session Log records the
original unwrapped prompt text for that user turn. -/
theorem files_wrapped_sent_unwrapped_persisted (fs : String → Option String)
    (clip : String → Bool) (modelName ts1 ts2 : String) (response_time : Int)
    (reply : String) (counter : Nat) (ctx : ChatContext) (prompt : String)
    (hcmd : ¬ (split1 prompt.toList).1.head? = some '/')
    (hne : prompt ≠ "") (hfiles : ctx.files ≠ []) :
    (main_step fs clip modelName ts1 ts2 response_time reply counter ctx prompt).sent =
      some (ctx.history.map turnMsg ++
        [⟨ROLE_USER,
          "Consider the following files:\n\n" ++
            String.intercalate "\n" (ctx.files.map renderRefFile) ++
            "\n\nMy question is this: " ++ prompt⟩]) ∧
    (main_step fs clip modelName ts1 ts2 response_time reply counter ctx prompt).ctx.history =
      ctx.history ++ [⟨ROLE_USER, prompt, "unset"⟩,
        ⟨ROLE_ASSISTANT, reply, "r" ++ toString counter⟩] ∧
    (main_step fs clip modelName ts1 ts2 response_time reply counter ctx prompt).logEntries =
      [log_entry ts1 ROLE_USER prompt none none none,
       log_entry ts2 ROLE_ASSISTANT reply (some modelName) (some response_time)
         (some ("r" ++ toString counter))] := by
  have hp : 0 < ctx.files.length := List.length_pos.mpr hfiles
  unfold main_step
  rw [process_prompt_noncommand fs clip ctx prompt hcmd]
  simp [hne, build_messages, add_history, turnMsg, hp]

/-- Witness for C6: the spec scenario â `"notes.txt"` containing
`"hello"` attached, prompt `"summarize"`: the outbound message embeds the
file and ends with the prompt, while the persisted user turn is exactly
`"summarize"`. -/
theorem files_wrapped_sent_unwrapped_persisted_witness :
    (main_step fsNone clipNone "m" "t1" "t2" 1 "ok" 0
        ⟨[], [⟨"notes.txt", "hello"⟩]⟩ "summarize").sent =
      some [⟨ROLE_USER,
        "Consider the following files:\n\n" ++
          String.intercalate "\n" ([⟨"notes.txt", "hello"⟩].map renderRefFile) ++
          "\n\nMy question is this: " ++ "summarize"⟩] ∧
    (main_step fsNone clipNone "m" "t1" "t2" 1 "ok" 0
        ⟨[], [⟨"notes.txt", "hello"⟩]⟩ "summarize").ctx.history =
      [⟨ROLE_USER, "summarize", "unset"⟩, ⟨ROLE_ASSISTANT, "ok", "r0"⟩] :=
  have h := files_wrapped_sent_unwrapped_persisted fsNone clipNone "m" "t1" "t2" 1 "ok" 0
    ⟨[], [⟨"notes.txt", "hello"⟩]⟩ "summarize" (by decide) (by decide) (by decide)
  ⟨h.1, h.2.1⟩

/-- A buffer without a newline yields no line. -/
theorem splitAtNewline_of_not_mem : ∀ buf : List Char, '\n' ∉ buf →
    splitAtNewline buf = none
  | [], _ => rfl
  | c :: cs, h => by
    have hc : ¬ c = '\n' := fun hx => h (hx ▸ List.mem_cons_self c cs)
    have ih := splitAtNewline_of_not_mem cs (fun hx => h (List.mem_cons_of_mem c hx))
    simp [splitAtNewline, hc, ih]

/-- When the buffer has no first line, it is all trailing partial. -/
theorem splitAtNewline_none : ∀ buf : List Char, splitAtNewline buf = none →
    splitLines buf = ([], buf)
  | [], _ => rfl
  | c :: cs, h => by
    by_cases hc : c = '\n'
    · simp [splitAtNewline, hc] at h
    · simp only [splitAtNewline, if_neg hc, Option.map_eq_none'] at h
      have ih := splitAtNewline_none cs h
      simp [splitLines, hc, ih]

/-- Extracting the first line commutes with `splitLines` and removes one
newline from the count. -/
theorem splitAtNewline_some : ∀ (buf l r : List Char),
    splitAtNewline buf = some (l, r) →
    splitLines buf = (l :: (splitLines r).1, (splitLines r).2) ∧
      buf.count '\n' = r.count '\n' + 1
  | [], l, r, h => by simp [splitAtNewline] at h
  | c :: cs, l, r, h => by
    by_cases hc : c = '\n'
    · simp only [splitAtNewline, if_pos hc, Option.some.injEq, Prod.mk.injEq] at h
      obtain ⟨hl, hr⟩ := h
      subst hl
      subst hr
      subst hc
      simp [splitLines, List.count_cons]
    · simp only [splitAtNewline, if_neg hc, Option.map_eq_some'] at h
      obtain ⟨⟨l', r'⟩, hcs, heq⟩ := h
      have hl : l = c :: l' := by
        have := congrArg Prod.fst heq
        simp at this
        exact this.symm
      have hr : r = r' := by
        have := congrArg Prod.snd heq
        simp at this
        exact this.symm
      subst hl
      subst hr
      have ih := splitAtNewline_some cs l' r hcs
      constructor
      · simp [splitLines, hc, ih.1]
      · simp [List.count_cons, hc, ih.2]

/-- The trailing partial line never contains a newline. -/
theorem splitLines_partial_no_newline : ∀ buf : List Char, '\n' ∉ (splitLines buf).2
  | [] => by simp [splitLines]
  | c :: cs => by
    have ih := splitLines_partial_no_newline cs
    by_cases hc : c = '\n'
    · simp [splitLines, hc, ih]
    · simp only [splitLines, if_neg hc]
      match hl : (splitLines cs).1 with
      | l :: ls => simpa using ih
      | [] =>
        simp only [List.mem_cons, not_or]
        exact ⟨fun hx => hc hx.symm, ih⟩

/-- With fuel at least the number of buffered newlines, the inner scan
loop processes exactly the complete lines of the buffer: it emits the
fragments of the per-line run, reports its success flag, and (on success)
leaves exactly the trailing partial line buffered. -/
theorem scanLines_eq (handle : List Char → Option (List String)) :
    ∀ (fuel : Nat) (buf : List Char), buf.count '\n' ≤ fuel →
    (scanLines handle fuel buf).1 = (runLines handle (splitLines buf).1).1 ∧
    (scanLines handle fuel buf).2.2 = (runLines handle (splitLines buf).1).2 ∧
    ((runLines handle (splitLines buf).1).2 = true →
      (scanLines handle fuel buf).2.1 = (splitLines buf).2) := by
  intro fuel
  induction fuel with
  | zero =>
    intro buf h
    have hnot : '\n' ∉ buf := by
      rw [← List.count_pos_iff]
      omega
    rw [splitAtNewline_none buf (splitAtNewline_of_not_mem buf hnot)]
    exact ⟨rfl, rfl, fun _ => rfl⟩
  | succ fuel ih =>
    intro buf h
    match hs : splitAtNewline buf with
    | none =>
      rw [splitAtNewline_none buf hs]
      simp only [scanLines, hs]
      exact ⟨rfl, rfl, fun _ => trivial⟩
    | some (l, r) =>
      obtain ⟨hsplit, hcount⟩ := splitAtNewline_some buf l r hs
      rw [hsplit]
      simp only [scanLines, hs, runLines]
      match he : lineEmit handle l with
      | none => exact ⟨rfl, rfl, fun hx => by simp at hx⟩
      | some fs =>
        have ihr := ih r (by omega)
        refine ⟨by simp [ihr.1], by simp [ihr.2.1], fun hx => ?_⟩
        have hx2 : (runLines handle (splitLines r).1).2 = true := by
          rcases hb : (runLines handle (splitLines r).1).2 with _ | _
          · rw [hb] at hx
            simp at hx
          · rfl
        simpa using ihr.2.2 hx2

/-- Unfolding `splitLines` at a non-newline head character. -/
theorem splitLines_cons_not_nl (c : Char) (cs : List Char) (hc : ¬ c = '\n') :
    splitLines (c :: cs) =
      (match (splitLines cs).1 with
        | l :: ls => ((c :: l) :: ls, (splitLines cs).2)
        | [] => ([], c :: (splitLines cs).2)) := by
  simp [splitLines, hc]

/-- Lines of a concatenation: the lines of the first part, then the lines
of its trailing partial glued to the second part. -/
theorem splitLines_append : ∀ x y : List Char,
    splitLines (x ++ y) =
      ((splitLines x).1 ++ (splitLines ((splitLines x).2 ++ y)).1,
        (splitLines ((splitLines x).2 ++ y)).2)
  | [], y => by simp [splitLines]
  | c :: cs, y => by
    have ih := splitLines_append cs y
    by_cases hc : c = '\n'
    · simp [splitLines, hc, ih]
    · rw [List.cons_append, splitLines_cons_not_nl c (cs ++ y) hc, ih,
        splitLines_cons_not_nl c cs hc]
      rcases hl : (splitLines cs).1 with _ | ⟨l, ls⟩ <;>
        simp [hl, splitLines_cons_not_nl _ _ hc]

/-- Running the per-line handler over a concatenation: the second part
runs only when the first part succeeds. -/
theorem runLines_append (handle : List Char → Option (List String)) :
    ∀ l1 l2 : List (List Char),
    runLines handle (l1 ++ l2) =
      (if (runLines handle l1).2 then
        ((runLines handle l1).1 ++ (runLines handle l2).1, (runLines handle l2).2)
       else runLines handle l1)
  | [], l2 => by simp [runLines]
  | l :: ls, l2 => by
    have ih := runLines_append handle ls l2
    simp only [List.cons_append, runLines]
    match he : lineEmit handle l with
    | none => simp
    | some fs =>
      by_cases hb : (runLines handle ls).2 <;> simp [ih, hb]

/-- The chunked decoder loop equals the per-line run over the lines of
the whole remaining byte stream, for any buffered partial line and any
read sizes the source can produce (`fh.read(100)` returns 1 to 100
bytes): the per-read cap of 100 line extractions never leaves a complete
line unprocessed. -/
theorem decodeChunks_eq_runLines (handle : List Char → Option (List String)) :
    ∀ (cs : List (List Char)) (buf : List Char), '\n' ∉ buf →
    (∀ c ∈ cs, c ≠ [] ∧ c.length ≤ 100) →
    decodeChunks handle cs buf = runLines handle (splitLines (buf ++ cs.flatten)).1
  | [], buf, h0, _ => by
    rw [List.flatten_nil, List.append_nil,
      splitAtNewline_none buf (splitAtNewline_of_not_mem buf h0)]
    rfl
  | c :: cs, buf, h0, h => by
    obtain ⟨hne, hlen⟩ := h c (List.mem_cons_self c cs)
    have hcount : (buf ++ c).count '\n' ≤ 100 := by
      rw [List.count_append]
      have h1 : buf.count '\n' = 0 := List.count_eq_zero.mpr h0
      have h2 : c.count '\n' ≤ c.length := List.count_le_length '\n' c
      omega
    have hscan := scanLines_eq handle 100 (buf ++ c) hcount
    have hjoin : buf ++ (c :: cs).flatten = (buf ++ c) ++ cs.flatten := by
      rw [List.flatten_cons, List.append_assoc]
    rw [hjoin, splitLines_append (buf ++ c) cs.flatten, runLines_append]
    simp only [decodeChunks, if_neg hne]
    rcases hok : (runLines handle (splitLines (buf ++ c)).1).2 with _ | _
    · -- a handler raised inside this read: both sides stop with its fragments
      rw [hscan.2.1.trans hok]
      simp only [Bool.false_eq_true, if_false, hok]
      exact Prod.ext (by simpa using hscan.1) (by simp [hok])
    · -- the read succeeded: recurse on the remaining chunks
      rw [hscan.2.1.trans hok]
      simp only [if_true, hok]
      have hbuf2 : (scanLines handle 100 (buf ++ c)).2.1 = (splitLines (buf ++ c)).2 :=
        hscan.2.2 hok
      rw [decodeChunks_eq_runLines handle cs _
        (hbuf2 ▸ splitLines_partial_no_newline (buf ++ c))
        (fun x hx => h x (List.mem_cons_of_mem c hx)), hbuf2]
      exact Prod.ext (by simpa using hscan.1) (by simp)

/-- The full decoder as a function of the chunk sequence equals the
per-line run over the lines of the concatenated stream. -/
theorem decodeStream_eq_runLines (handle : List Char → Option (List String))
    (cs : List (List Char)) (h : ∀ c ∈ cs, c ≠ [] ∧ c.length ≤ 100) :
    decodeStream handle cs = runLines handle (splitLines cs.flatten).1 := by
  have hd := decodeChunks_eq_runLines handle cs [] (by simp) h
  simpa [decodeStream] using hd

/-- Claim C5: for any fixed underlying byte stream, and any two ways the
network can split it into reads (each read hands over between 1 and 100
bytes, as `fh.read(100)` does), both Stream Decoder variants emit the
identical ordered fragment sequence (and the identical error outcome):
chunk boundaries are invisible, because each decoder equals the per-line
run over the lines of the concatenated stream — the per-read cap on line
extractions only defers work to later reads and never drops a line. -/
theorem decoder_chunk_invariance (cs1 cs2 : List (List Char))
    (h1 : ∀ c ∈ cs1, c ≠ [] ∧ c.length ≤ 100)
    (h2 : ∀ c ∈ cs2, c ≠ [] ∧ c.length ≤ 100)
    (hjoin : cs1.flatten = cs2.flatten) :
    openai_user_query_streamed cs1 = openai_user_query_streamed cs2 ∧
    anthropic_user_query_streamed cs1 = anthropic_user_query_streamed cs2 ∧
    openai_user_query_streamed cs1 =
      runLines openaiHandle (splitLines cs1.flatten).1 ∧
    anthropic_user_query_streamed cs1 =
      runLines anthropicHandle (splitLines cs1.flatten).1 := by
  have ho1 := decodeStream_eq_runLines openaiHandle cs1 h1
  have ho2 := decodeStream_eq_runLines openaiHandle cs2 h2
  have ha1 := decodeStream_eq_runLines anthropicHandle cs1 h1
  have ha2 := decodeStream_eq_runLines anthropicHandle cs2 h2
  refine ⟨?_, ?_, ho1, ha1⟩
  · show decodeStream openaiHandle cs1 = decodeStream openaiHandle cs2
    rw [ho1, ho2, hjoin]
  · show decodeStream anthropicHandle cs1 = decodeStream anthropicHandle cs2
    rw [ha1, ha2, hjoin]

/-- Witness for C5: the same two-line stream read all at once versus cut
in the middle of the second line's marker yields the same decode. -/
theorem decoder_chunk_invariance_witness :
    openai_user_query_streamed ["data: [DONE]\nda".toList, "ta: [DONE]\n".toList] =
      openai_user_query_streamed ["data: [DONE]\ndata: [DONE]\n".toList] :=
  (decoder_chunk_invariance ["data: [DONE]\nda".toList, "ta: [DONE]\n".toList]
    ["data: [DONE]\ndata: [DONE]\n".toList] (by decide) (by decide) (by decide)).1

/-- Counterexample to claim C1: the sentinel does not terminate the
decoder; on a stream carrying a decodable content line *after*
`data: [DONE]`, the OpenAI-style decoder still emits that later fragment,
so the fragment stream does not end at the sentinel. -/
theorem openai_done_sentinel_counterexample :
    openai_user_query_streamed
        [("data: [DONE]\ndata: \x7b\"choices\":[\x7b\"delta\":\x7b\"content\":\"hi\"\x7d\x7d]\x7d\n".toList)] =
      (["hi"], true) ∧ (["hi"] : List String) ≠ [] := by
  refine ⟨rfl, ?_⟩
  decide

/-- Claim C1 (amended): a `"data: [DONE]"` line is recognized before any
structured decoding, emits no fragment and raises no error — but it does
not terminate decoding: the decoder goes on to process any later lines
exactly as if the sentinel line were absent (in the real protocol the
source is exhausted right after the sentinel, which is what ends the
stream). -/
theorem openai_done_sentinel_skipped :
    openaiHandle "[DONE]".toList = some [] ∧
    ∀ ls1 ls2 : List (List Char),
      runLines openaiHandle (ls1 ++ "data: [DONE]".toList :: ls2) =
        runLines openaiHandle (ls1 ++ ls2) := by
  refine ⟨rfl, ?_⟩
  intro ls1 ls2
  induction ls1 with
  | nil =>
    show runLines openaiHandle ("data: [DONE]".toList :: ls2) = _
    have hline : lineEmit openaiHandle ("data: [DONE]".toList) = some [] := rfl
    simp only [runLines, hline, List.nil_append]
  | cons l ls ih =>
    have hx : ls.append ("data: [DONE]".toList :: ls2) =
        ls ++ "data: [DONE]".toList :: ls2 := rfl
    have hy : ls.append ls2 = ls ++ ls2 := rfl
    simp only [List.cons_append, runLines, hx, hy, ih]

/-- Counterexample to claim C3: the OpenAI-style decoder emits the empty
string as a fragment when the event's delta carries `"content": ""` (the
source only checks `is not None`), so not every emitted fragment is
non-empty. -/
theorem decoder_fragment_nonempty_counterexample :
    (openai_user_query_streamed
        [("data: \x7b\"choices\":[\x7b\"delta\":\x7b\"content\":\"\"\x7d\x7d]\x7d\n".toList)]).1 =
      [""] ∧
    ¬ (∀ s ∈ (openai_user_query_streamed
        [("data: \x7b\"choices\":[\x7b\"delta\":\x7b\"content\":\"\"\x7d\x7d]\x7d\n".toList)]).1,
        s ≠ "") := by
  refine ⟨rfl, fun hall => hall "" (by decide) rfl⟩

/-- The Anthropic-style payload handler only ever yields a truthy (hence
non-empty) text. -/
theorem anthropicHandle_nonempty (data : List Char) (fs : List String)
    (h : anthropicHandle data = some fs) : ∀ s ∈ fs, s ≠ "" := by
  unfold anthropicHandle at h
  repeat' split at h
  all_goals try cases h
  all_goals intro s hs
  all_goals
    first
      | exact absurd hs (List.not_mem_nil s)
      | (rw [List.mem_singleton] at hs
         subst hs
         rename_i hv
         simpa [pyTruthy] using hv)

/-- A full line handled by the Anthropic handler yields only non-empty
fragments (non-`data: ` lines yield none at all). -/
theorem lineEmit_anthropic_nonempty (line : List Char) (fs : List String)
    (h : lineEmit anthropicHandle line = some fs) : ∀ s ∈ fs, s ≠ "" := by
  unfold lineEmit at h
  split at h
  · exact anthropicHandle_nonempty _ fs h
  · injection h with h
    subst h
    intro s hs
    cases hs

/-- Every fragment produced by the inner scan loop with the Anthropic
handler is non-empty. -/
theorem scanLines_anthropic_nonempty :
    ∀ (fuel : Nat) (buf : List Char) (s : String),
      s ∈ (scanLines anthropicHandle fuel buf).1 → s ≠ ""
  | 0, buf, s, hs => by cases hs
  | fuel + 1, buf, s, hs => by
    simp only [scanLines] at hs
    split at hs
    · cases hs
    · rename_i line rest hsplit
      split at hs
      · cases hs
      · rename_i fs he
        rw [List.mem_append] at hs
        rcases hs with hs | hs
        · exact lineEmit_anthropic_nonempty line fs he s hs
        · exact scanLines_anthropic_nonempty fuel rest s hs

/-- Every fragment produced by the chunked Anthropic decoder loop is
non-empty. -/
theorem decodeChunks_anthropic_nonempty :
    ∀ (cs : List (List Char)) (buf : List Char) (s : String),
      s ∈ (decodeChunks anthropicHandle cs buf).1 → s ≠ ""
  | [], buf, s, hs => by cases hs
  | c :: cs, buf, s, hs => by
    simp only [decodeChunks] at hs
    split at hs
    · cases hs
    · split at hs
      · rw [List.mem_append] at hs
        rcases hs with hs | hs
        · exact scanLines_anthropic_nonempty 100 (buf ++ c) s hs
        · exact decodeChunks_anthropic_nonempty cs _ s hs
      · exact scanLines_anthropic_nonempty 100 (buf ++ c) s hs

/-- Claim C3 (amended): every fragment emitted by the Anthropic-style
decoder is a non-empty string (a missing or empty — indeed any falsy —
text field yields no fragment), but the OpenAI-style handler emits a
fragment whenever the delta's `content` field is present and non-null,
*including the empty string*, so the non-emptiness guarantee holds only
for the Anthropic-style variant. -/
theorem anthropic_fragments_nonempty :
    (∀ (cs : List (List Char)) (s : String),
        s ∈ (anthropic_user_query_streamed cs).1 → s ≠ "") ∧
    openaiHandle ("\x7b\"choices\":[\x7b\"delta\":\x7b\"content\":\"\"\x7d\x7d]\x7d".toList) =
      some [""] := by
  refine ⟨fun cs s hs => ?_, rfl⟩
  exact decodeChunks_anthropic_nonempty cs [] s hs

/-- Witness for C3 at a concrete stream: the emitted fragment `"ok"` is
non-empty. -/
theorem anthropic_fragments_nonempty_witness :
    (anthropic_user_query_streamed
        [("data: \x7b\"delta\":\x7b\"text\":\"ok\"\x7d\x7d\n".toList)]).1 = ["ok"] ∧
    ("ok" : String) ≠ "" :=
  ⟨rfl,
   anthropic_fragments_nonempty.1
     [("data: \x7b\"delta\":\x7b\"text\":\"ok\"\x7d\x7d\n".toList)] "ok" (by decide)⟩

end LlmChat
